import Mathlib

/-!
Shallow embedding of the TodoStore component of the simple-to-do-list backend
(app/models/todo_store.py) together with the store-level wrappers that track
persistence effects. Python dicts with a fixed key set are modelled as
structures; an absent key of a payload dict is modelled by an outer Option.
Timestamps are the ISO-8601 strings the code stores, ordered by the string
order (the code itself only ever stores and compares them as strings).
-/

/-- Lexicographic comparison of char lists by code point, the order Python
uses on strings. -/
def charListLe : List Char → List Char → Bool
  | [], _ => true
  | _ :: _, [] => false
  | a :: as, b :: bs => a < b || (a == b && charListLe as bs)

/-- Python string comparison a <= b. -/
def strLe (a b : String) : Bool :=
  charListLe a.data b.data

/-- ASCII lowercasing of one char, the effect of the Python lower method on
the ASCII strings this program compares. -/
def pyLowerChar (c : Char) : Char :=
  if 65 ≤ c.toNat ∧ c.toNat ≤ 90 then Char.ofNat (c.toNat + 32) else c

/-- Python lower. -/
def pyLower (s : String) : String :=
  ⟨s.data.map pyLowerChar⟩

/-- The ASCII whitespace stripped by the Python strip method. -/
def isSpaceChar (c : Char) : Bool :=
  c == ' ' || c == '\t' || c == '\n' || c == '\r' || c == '\x0b' || c == '\x0c'

/-- Python strip: drop leading and trailing whitespace. -/
def pyStrip (s : String) : String :=
  ⟨((s.data.dropWhile isSpaceChar).reverse.dropWhile isSpaceChar).reverse⟩

/-- A todo record as stored by the TodoStore: the fields of the dict built in
TodoStore.create. Timestamps are ISO-8601 UTC strings. -/
structure Todo where
  id : String
  title : String
  description : Option String
  completed : Bool
  created_at : String
  updated_at : String
  due_date : Option String
  priority : Option Int
deriving Repr, DecidableEq

/-- The create payload dict as read by TodoStore.create via data.get: none
models an absent key or a JSON null, which data.get with a default treats
alike (for title the code applies `or`, for completed `bool`, both of which
send null to the same result as absence). -/
structure CreateData where
  title : Option String
  description : Option String
  completed : Option Bool
  due_date : Option String
  priority : Option Int
deriving Repr, DecidableEq

/-- The partial update payload dict as read by TodoStore.update. The outer
Option models key presence (none = key absent), the inner Option models a
JSON null value, which update distinguishes from absence. -/
structure UpdateData where
  title : Option (Option String)
  description : Option (Option String)
  completed : Option (Option Bool)
  due_date : Option (Option String)
  priority : Option (Option Int)
deriving Repr, DecidableEq

/-- Arguments of TodoStore.list. search and completed are optional filters;
page and per_page are arbitrary integers, clamped inside list. -/
structure ListArgs where
  search : Option String
  completed : Option Bool
  sort_by : String
  sort_dir : String
  page : Int
  per_page : Int
deriving Repr, DecidableEq

/-- The meta dict returned by TodoStore.list. -/
structure ListMeta where
  page : Nat
  per_page : Nat
  total : Nat
  pages : Nat
deriving Repr, DecidableEq

/-- TodoStore.create: builds the record from the payload and appends it to the
collection. The fresh uuid4 id and the current time are explicit arguments. -/
def TodoStore.create (s : List Todo) (data : CreateData) (newId now : String) :
    Todo × List Todo :=
  let todo : Todo :=
    { id := newId
      title := pyStrip (data.title.getD "")
      description := data.description
      completed := data.completed.getD false
      created_at := now
      updated_at := now
      due_date := data.due_date
      priority := data.priority }
  (todo, s ++ [todo])

/-- The linear scan shared by get, update, toggle and delete: the first record
whose id field equals the requested id. -/
def findTodo : List Todo → String → Option Todo
  | [], _ => none
  | t :: ts, id => if t.id == id then some t else findTodo ts id

/-- TodoStore.get: returns a copy of the first matching record, or none. -/
def TodoStore.get (s : List Todo) (id : String) : Option Todo :=
  findTodo s id

/-- The field-by-field application of a partial update payload to a record, as
performed inside the match branch of TodoStore.update: a present non-null
title is trimmed, a present description, due_date or priority is taken as is
(null clears), a present non-null completed is taken as boolean, and
updated_at is stamped with the current time. -/
def applyUpdate (t : Todo) (d : UpdateData) (now : String) : Todo :=
  { t with
    title := match d.title with
      | some (some v) => pyStrip v
      | _ => t.title
    description := match d.description with
      | some v => v
      | none => t.description
    completed := match d.completed with
      | some (some b) => b
      | _ => t.completed
    due_date := match d.due_date with
      | some v => v
      | none => t.due_date
    priority := match d.priority with
      | some v => v
      | none => t.priority
    updated_at := now }

/-- TodoStore.update: replaces the first matching record by its updated copy
and returns it; returns none when no record matches. -/
def TodoStore.update : List Todo → String → UpdateData → String →
    Option Todo × List Todo
  | [], _, _, _ => (none, [])
  | t :: ts, id, d, now =>
    if t.id == id then
      let u := applyUpdate t d now
      (some u, u :: ts)
    else
      let r := TodoStore.update ts id d now
      (r.1, t :: r.2)

/-- The record transformation inside TodoStore.toggle: flip completed, stamp
updated_at. -/
def toggleTodo (t : Todo) (now : String) : Todo :=
  { t with completed := !t.completed, updated_at := now }

/-- TodoStore.toggle: replaces the first matching record by its toggled copy
and returns it; returns none when no record matches. -/
def TodoStore.toggle : List Todo → String → String → Option Todo × List Todo
  | [], _, _ => (none, [])
  | t :: ts, id, now =>
    if t.id == id then
      let u := toggleTodo t now
      (some u, u :: ts)
    else
      let r := TodoStore.toggle ts id now
      (r.1, t :: r.2)

/-- TodoStore.delete: removes the first matching record, returning true; false
when no record matches. -/
def TodoStore.delete : List Todo → String → Bool × List Todo
  | [], _ => (false, [])
  | t :: ts, id =>
    if t.id == id then (true, ts)
    else
      let r := TodoStore.delete ts id
      (r.1, t :: r.2)

/-- Python substring membership q in hay. -/
def containsSub (hay q : String) : Bool :=
  (List.range (hay.data.length + 1)).any fun i => q.data.isPrefixOf (hay.data.drop i)

/-- The helper safe lower of todo_store.py: (s or "").lower(). -/
def safeLower : Option String → String
  | none => ""
  | some s => pyLower s

/-- The filtering stage of TodoStore.list: a truthy (non-null, non-empty)
search keeps the records whose lowered title or description contains the
lowered search string; a set completed keeps the records with that exact
completion status. -/
def listFiltered (search : Option String) (completed : Option Bool)
    (items : List Todo) : List Todo :=
  let afterSearch := match search with
    | some q =>
      if q == "" then items
      else items.filter fun t =>
        containsSub (safeLower (some t.title)) (pyLower q) ||
          containsSub (safeLower t.description) (pyLower q)
    | none => items
  match completed with
  | some c => afterSearch.filter fun t => t.completed == c
  | none => afterSearch

/-- The sort_by normalization of TodoStore.list: anything outside the allowed
set silently falls back to created_at. -/
def normSortBy (sb : String) : String :=
  if sb == "created_at" || sb == "updated_at" || sb == "title" || sb == "priority"
  then sb else "created_at"

/-- Order on sort keys for sort_by = priority: a missing priority is the float
infinity of the code, larger than every set priority. -/
def priLe : Option Int → Option Int → Bool
  | none, none => true
  | none, some _ => false
  | some _, none => true
  | some a, some b => decide (a ≤ b)

/-- The sort key comparison of TodoStore.list for a normalized sort_by:
timestamps compare as strings, titles compare lowercased, priorities via
priLe. -/
def todoKeyLe (sb : String) (a b : Todo) : Bool :=
  if sb == "title" then strLe (pyLower a.title) (pyLower b.title)
  else if sb == "priority" then priLe a.priority b.priority
  else if sb == "updated_at" then strLe a.updated_at b.updated_at
  else strLe a.created_at b.created_at

/-- The reverse flag of TodoStore.list, line by line from the source:
(sort_dir or "desc").lower() == "desc". An empty (falsy) sort_dir falls back
to "desc" before the comparison. -/
def listReverseFlag (sd : String) : Bool :=
  pyLower (if sd == "" then "desc" else sd) == "desc"

/-- The comparison actually passed to the stable sort: the key order, flipped
when the reverse flag is set (the stable reverse=True sort of Python equals a
stable sort under the flipped comparison). -/
def todoSortLe (sb : String) (descFlag : Bool) (a b : Todo) : Bool :=
  if descFlag then todoKeyLe sb b a else todoKeyLe sb a b

/-- The filtered and sorted snapshot computed by TodoStore.list before
pagination. -/
def listPipeline (s : List Todo) (a : ListArgs) : List Todo :=
  (listFiltered a.search a.completed s).insertionSort
    (fun x y => todoSortLe (normSortBy a.sort_by) (listReverseFlag a.sort_dir) x y = true)

/-- The effective page number: max(1, int(page or 1)). A zero page is falsy in
Python and falls back to 1 before clamping. -/
def pageEff (p : Int) : Nat :=
  (max 1 (if p == 0 then 1 else p)).toNat

/-- The effective page size: max(1, int(per_page or 20)). A zero per_page is
falsy and falls back to the default 20 before clamping. -/
def perPageEff (pp : Int) : Nat :=
  (max 1 (if pp == 0 then 20 else pp)).toNat

/-- The pagination stage of TodoStore.list: clamp page and per_page, compute
total and pages, slice the sorted list. -/
def paginate (page per_page : Int) (items : List Todo) : List Todo × ListMeta :=
  let pg := pageEff page
  let pp := perPageEff per_page
  let total := items.length
  let pages := if 0 < total then (total + pp - 1) / pp else 1
  let start := (pg - 1) * pp
  ((items.drop start).take pp, ⟨pg, pp, total, pages⟩)

/-- TodoStore.list: filter, sort, paginate a snapshot of the collection. -/
def TodoStore.list (s : List Todo) (a : ListArgs) : List Todo × ListMeta :=
  paginate a.page a.per_page (listPipeline s a)

/-- Store state: the collection plus the persistence mode and a count of the
file writes performed by the persist helper. -/
structure StoreState where
  modeFile : Bool
  todos : List Todo
  persistWrites : Nat
deriving Repr, DecidableEq

/-- One call of the persist helper: writes the file only in file mode. -/
def StoreState.persist (st : StoreState) : StoreState :=
  if st.modeFile then { st with persistWrites := st.persistWrites + 1 } else st

/-- create at the store-state level: append, then persist. -/
def StoreState.createS (st : StoreState) (d : CreateData) (newId now : String) :
    Todo × StoreState :=
  let r := TodoStore.create st.todos d newId now
  (r.1, StoreState.persist { st with todos := r.2 })

/-- update at the store-state level: the persist helper runs only inside the
match branch, so a not-found update performs no write. -/
def StoreState.updateS (st : StoreState) (id : String) (d : UpdateData)
    (now : String) : Option Todo × StoreState :=
  let r := TodoStore.update st.todos id d now
  if r.1.isSome then (r.1, StoreState.persist { st with todos := r.2 })
  else (r.1, { st with todos := r.2 })

/-- toggle at the store-state level. -/
def StoreState.toggleS (st : StoreState) (id now : String) :
    Option Todo × StoreState :=
  let r := TodoStore.toggle st.todos id now
  if r.1.isSome then (r.1, StoreState.persist { st with todos := r.2 })
  else (r.1, { st with todos := r.2 })

/-- delete at the store-state level. -/
def StoreState.deleteS (st : StoreState) (id : String) : Bool × StoreState :=
  let r := TodoStore.delete st.todos id
  if r.1 then (r.1, StoreState.persist { st with todos := r.2 })
  else (r.1, { st with todos := r.2 })

/-- get at the store-state level: a pure read. -/
def StoreState.getS (st : StoreState) (id : String) : Option Todo × StoreState :=
  (findTodo st.todos id, st)

/-- list at the store-state level: computed on a snapshot of the collection,
with no write-back and no persist call anywhere in the method body. -/
def StoreState.listS (st : StoreState) (a : ListArgs) :
    (List Todo × ListMeta) × StoreState :=
  (TodoStore.list st.todos a, st)

/-- One store operation, with the fresh id and timestamps the operation would
draw from uuid4 and the clock made explicit. -/
inductive Op where
  | opCreate (d : CreateData) (newId now : String)
  | opUpdate (id : String) (d : UpdateData) (now : String)
  | opToggle (id now : String)
  | opDelete (id : String)
  | opGet (id : String)
  | opList (a : ListArgs)
deriving Repr, DecidableEq

/-- The state transition of one operation. -/
def applyOp (st : StoreState) : Op → StoreState
  | .opCreate d i n => (st.createS d i n).2
  | .opUpdate i d n => (st.updateS i d n).2
  | .opToggle i n => (st.toggleS i n).2
  | .opDelete i => (st.deleteS i).2
  | .opGet i => (st.getS i).2
  | .opList a => (st.listS a).2

/-- Running a sequence of operations. -/
def runOps (st : StoreState) : List Op → StoreState
  | [] => st
  | op :: ops => runOps (applyOp st op) ops

/-- Whether an operation is a list query. -/
def Op.isListQuery : Op → Bool
  | .opList _ => true
  | _ => false

/-- The timestamp an operation stamps into records, when it stamps one. -/
def Op.stamp : Op → Option String
  | .opCreate _ _ n => some n
  | .opUpdate _ _ n => some n
  | .opToggle _ n => some n
  | _ => none

/-- The clock is monotone along the operation sequence: each stamped time is
at least the running clock, which it then advances. -/
def chron : String → List Op → Bool
  | _, [] => true
  | c, op :: ops =>
    match op.stamp with
    | some n => strLe c n && chron n ops
    | none => chron c ops

/-- Timestamp sanity of a collection against a clock: every record was
created no later than it was updated, and updated no later than the clock. -/
def stampOk (c : String) (s : List Todo) : Bool :=
  s.all fun t => strLe t.created_at t.updated_at && strLe t.updated_at c

/-- Every live record carries a trimmed title (the strip of some string). -/
def TitleTrimmedInv (s : List Todo) : Prop :=
  ∀ t ∈ s, ∃ u : String, t.title = pyStrip u

/-- Number of live records carrying a given id. -/
def countId (s : List Todo) (id : String) : Nat :=
  (s.filter fun t => t.id == id).length

/-- The clock value after a sequence of operations: the last stamped time, or
the starting clock when nothing was stamped. -/
def clockAfter : String → List Op → String
  | c, [] => c
  | c, op :: ops =>
    clockAfter (match op.stamp with | some n => n | none => c) ops

/-- The common find-and-replace-first loop shape of update and toggle: replace
the first record matching the id by f of it and return the new record. -/
def replaceFirstBy (f : Todo → Todo) : List Todo → String → Option Todo × List Todo
  | [], _ => (none, [])
  | t :: ts, id =>
    if t.id == id then
      let u := f t
      (some u, u :: ts)
    else
      let r := replaceFirstBy f ts id
      (r.1, t :: r.2)

/-- Fixture: an unprioritized, never-updated record. -/
def sampleA : Todo :=
  { id := "a", title := "Alpha", description := none, completed := false,
    created_at := "2024-01-01T00:00:00Z", updated_at := "2024-01-01T00:00:00Z",
    due_date := none, priority := none }

/-- Fixture: a completed record with description and priority. -/
def sampleB : Todo :=
  { id := "b", title := "Beta", description := some "Buy milk", completed := true,
    created_at := "2024-01-02T00:00:00Z", updated_at := "2024-01-03T00:00:00Z",
    due_date := some "2024-02-01T00:00:00Z", priority := some 2 }

/-- Fixture: a record with the lowest set priority. -/
def sampleC : Todo :=
  { id := "c", title := "Gamma", description := none, completed := false,
    created_at := "2024-01-03T00:00:00Z", updated_at := "2024-01-03T00:00:00Z",
    due_date := none, priority := some 1 }

/-- Fixture: the default list arguments of the route layer. -/
def defaultArgs : ListArgs :=
  { search := none, completed := none, sort_by := "created_at",
    sort_dir := "desc", page := 1, per_page := 20 }

/-- Fixture: a create payload that tries to set completed. -/
def cdWithCompleted : CreateData :=
  { title := some "Buy milk", description := none, completed := some true,
    due_date := none, priority := none }

/-- Fixture: a plain create payload without a completed key. -/
def cdPlain : CreateData :=
  { title := some "  Buy milk ", description := none, completed := none,
    due_date := none, priority := none }

/-- Fixture: a whitespace-only-title create payload. -/
def cdBlankTitle : CreateData :=
  { title := some "   ", description := none, completed := none,
    due_date := none, priority := none }

/-- Fixture: the empty update payload. -/
def udEmpty : UpdateData :=
  { title := none, description := none, completed := none, due_date := none,
    priority := none }

/-- Fixture: an update payload setting title, completed and priority and
clearing description. -/
def udFull : UpdateData :=
  { title := some (some "  New title "), description := some none,
    completed := some (some true), due_date := none,
    priority := some (some 4) }

/-- Fixture: an update payload with null title and null completed. -/
def udNulls : UpdateData :=
  { title := some none, description := none, completed := some none,
    due_date := none, priority := none }

/-- Fixture: another unprioritized record, created after the others. -/
def sampleD : Todo :=
  { id := "d", title := "Delta", description := none, completed := false,
    created_at := "2024-01-04T00:00:00Z", updated_at := "2024-01-04T00:00:00Z",
    due_date := none, priority := none }

/-- Fixture: list arguments sorting by priority ascending. -/
def argsPriAsc : ListArgs :=
  { search := none, completed := none, sort_by := "priority",
    sort_dir := "asc", page := 1, per_page := 20 }

/-- Fixture: list arguments sorting by priority descending. -/
def argsPriDesc : ListArgs :=
  { search := none, completed := none, sort_by := "priority",
    sort_dir := "desc", page := 1, per_page := 20 }

/-- Fixture: an empty in-memory store state. -/
def stEmpty : StoreState :=
  { modeFile := false, todos := [], persistWrites := 0 }

/-- Fixture: a file-mode store state holding two records. -/
def stAB : StoreState :=
  { modeFile := true, todos := [sampleA, sampleB], persistWrites := 0 }

/-- Fixture: twenty-five identical records. -/
def manyTodos : List Todo :=
  (List.range 25).map fun _ =>
    { id := "x", title := "T", description := none, completed := false,
      created_at := "2024-01-01T00:00:00Z",
      updated_at := "2024-01-01T00:00:00Z", due_date := none, priority := none }

/-- Fixture: page three at ten per page. -/
def argsPage3 : ListArgs :=
  { search := none, completed := none, sort_by := "created_at",
    sort_dir := "asc", page := 3, per_page := 10 }

/-- Fixture: a record as produced by creating from cdPlain and toggling. -/
def todoFix : Todo :=
  { id := "id1", title := "Buy milk", description := none, completed := true,
    created_at := "t1", updated_at := "t2", due_date := none, priority := none }

/-! ### Helper lemmas -/

theorem charListLe_refl : ∀ l : List Char, charListLe l l = true
  | [] => rfl
  | a :: as => by simp [charListLe, charListLe_refl as]

theorem charListLe_trans : ∀ {a b c : List Char},
    charListLe a b = true → charListLe b c = true → charListLe a c = true
  | [], _, _, _, _ => rfl
  | _ :: _, [], _, h, _ => by simp [charListLe] at h
  | _ :: _, _ :: _, [], _, h => by simp [charListLe] at h
  | x :: xs, y :: ys, z :: zs, h1, h2 => by
    simp only [charListLe, Bool.or_eq_true, Bool.and_eq_true, decide_eq_true_eq,
      beq_iff_eq] at h1 h2 ⊢
    rcases h1 with h1 | ⟨hxy, h1⟩ <;> rcases h2 with h2 | ⟨hyz, h2⟩
    · exact Or.inl (lt_trans h1 h2)
    · exact Or.inl (hyz ▸ h1)
    · exact Or.inl (hxy ▸ h2)
    · exact Or.inr ⟨hxy.trans hyz, charListLe_trans h1 h2⟩

theorem strLe_refl (a : String) : strLe a a = true :=
  charListLe_refl a.data

theorem strLe_trans {a b c : String} (h1 : strLe a b = true)
    (h2 : strLe b c = true) : strLe a c = true :=
  charListLe_trans h1 h2

theorem applyUpdate_id (t : Todo) (d : UpdateData) (now : String) :
    (applyUpdate t d now).id = t.id := rfl

theorem toggleTodo_id (t : Todo) (now : String) :
    (toggleTodo t now).id = t.id := rfl

theorem findTodo_eq_none_iff : ∀ {s : List Todo} {id : String},
    findTodo s id = none ↔ ∀ t ∈ s, t.id ≠ id
  | [], _ => by simp [findTodo]
  | x :: xs, id => by
    cases hx : x.id == id
    · have hx2 : x.id ≠ id := by simpa using hx
      simp [findTodo, hx, @findTodo_eq_none_iff xs id, hx2]
    · have hx2 : x.id = id := by simpa using hx
      simp [findTodo, hx, List.forall_mem_cons, hx2]

theorem update_eq_replaceFirstBy :
    ∀ (s : List Todo) (id : String) (d : UpdateData) (now : String),
      TodoStore.update s id d now = replaceFirstBy (fun t => applyUpdate t d now) s id
  | [], _, _, _ => rfl
  | t :: ts, id, d, now => by
    simp only [TodoStore.update, replaceFirstBy, update_eq_replaceFirstBy ts]

theorem toggle_eq_replaceFirstBy :
    ∀ (s : List Todo) (id now : String),
      TodoStore.toggle s id now = replaceFirstBy (fun t => toggleTodo t now) s id
  | [], _, _ => rfl
  | t :: ts, id, now => by
    simp only [TodoStore.toggle, replaceFirstBy, toggle_eq_replaceFirstBy ts]

theorem replaceFirstBy_of_not_found {f : Todo → Todo} :
    ∀ {s : List Todo} {id : String}, findTodo s id = none →
      replaceFirstBy f s id = (none, s)
  | [], _, _ => rfl
  | x :: xs, id, h => by
    cases hx : x.id == id <;> simp [findTodo, hx] at h
    simp [replaceFirstBy, hx, replaceFirstBy_of_not_found h]

theorem replaceFirstBy_of_found {f : Todo → Todo} (hf : ∀ t, (f t).id = t.id) :
    ∀ {s : List Todo} {id : String} {t : Todo}, findTodo s id = some t →
      (replaceFirstBy f s id).1 = some (f t) ∧
      findTodo (replaceFirstBy f s id).2 id = some (f t)
  | [], _, _, h => by simp [findTodo] at h
  | x :: xs, id, t, h => by
    cases hx : x.id == id <;> simp [findTodo, hx] at h
    · have ih := replaceFirstBy_of_found hf h
      simp [replaceFirstBy, hx, findTodo, ih.1, ih.2]
    · subst h
      simp [replaceFirstBy, hx, findTodo, hf]

theorem replaceFirstBy_mem {f : Todo → Todo} :
    ∀ {s : List Todo} {id : String} {x : Todo},
      x ∈ (replaceFirstBy f s id).2 → x ∈ s ∨ ∃ t ∈ s, x = f t
  | [], _, _, h => by simp [replaceFirstBy] at h
  | y :: ys, id, x, h => by
    cases hy : y.id == id <;> simp [replaceFirstBy, hy] at h
    · rcases h with h | h
      · exact Or.inl (by simp [h])
      · rcases replaceFirstBy_mem h with h2 | ⟨t, ht, rfl⟩
        · exact Or.inl (by simp [h2])
        · exact Or.inr ⟨t, by simp [ht]⟩
    · rcases h with h | h
      · exact Or.inr ⟨y, by simp [h]⟩
      · exact Or.inl (by simp [h])

theorem replaceFirstBy_forall₂ {f : Todo → Todo} {P : Todo → Todo → Prop}
    (hrefl : ∀ t, P t t) (hstep : ∀ t, P t (f t)) :
    ∀ (s : List Todo) (id : String), List.Forall₂ P s (replaceFirstBy f s id).2
  | [], _ => List.Forall₂.nil
  | y :: ys, id => by
    cases hy : y.id == id <;> simp [replaceFirstBy, hy]
    · exact ⟨hrefl y, replaceFirstBy_forall₂ hrefl hstep ys id⟩
    · exact ⟨hstep y, fun t _ => hrefl t⟩

theorem delete_of_not_found : ∀ {s : List Todo} {id : String},
    findTodo s id = none → TodoStore.delete s id = (false, s)
  | [], _, _ => rfl
  | x :: xs, id, h => by
    cases hx : x.id == id <;> simp [findTodo, hx] at h
    simp [TodoStore.delete, hx, delete_of_not_found h]

theorem delete_mem : ∀ {s : List Todo} {id : String} {x : Todo},
    x ∈ (TodoStore.delete s id).2 → x ∈ s
  | [], _, _, h => by simp [TodoStore.delete] at h
  | y :: ys, id, x, h => by
    cases hy : y.id == id <;> simp [TodoStore.delete, hy] at h
    · rcases h with h | h
      · exact by simp [h]
      · exact List.mem_cons_of_mem y (delete_mem h)
    · exact List.mem_cons_of_mem y h

theorem countId_eq_zero_iff {s : List Todo} {id : String} :
    countId s id = 0 ↔ ∀ t ∈ s, t.id ≠ id := by
  simp [countId, List.length_eq_zero, List.filter_eq_nil_iff]

theorem findTodo_delete_of_countId_le_one :
    ∀ {s : List Todo} {id : String}, countId s id ≤ 1 →
      findTodo (TodoStore.delete s id).2 id = none
  | [], _, _ => rfl
  | x :: xs, id, h => by
    cases hx : x.id == id <;>
      simp [countId, List.filter_cons, hx] at h
    · have ih := @findTodo_delete_of_countId_le_one xs id
        (by simpa [countId] using h)
      have hx2 : x.id ≠ id := by simpa using hx
      simp [TodoStore.delete, hx, findTodo, ih]
    · have hzero : countId xs id = 0 := by simpa [countId] using h
      have := countId_eq_zero_iff.mp hzero
      simp [TodoStore.delete, hx, findTodo_eq_none_iff.mpr this]

@[simp] theorem persist_todos (st : StoreState) :
    (StoreState.persist st).todos = st.todos := by
  simp only [StoreState.persist]
  split <;> rfl

@[simp] theorem persist_modeFile (st : StoreState) :
    (StoreState.persist st).modeFile = st.modeFile := by
  simp only [StoreState.persist]
  split <;> rfl

@[simp] theorem createS_todos (st : StoreState) (d : CreateData) (i n : String) :
    (st.createS d i n).2.todos = (TodoStore.create st.todos d i n).2 := by
  simp [StoreState.createS]

@[simp] theorem updateS_todos (st : StoreState) (id : String) (d : UpdateData)
    (n : String) :
    (st.updateS id d n).2.todos = (TodoStore.update st.todos id d n).2 := by
  simp only [StoreState.updateS]
  split <;> simp

@[simp] theorem toggleS_todos (st : StoreState) (id n : String) :
    (st.toggleS id n).2.todos = (TodoStore.toggle st.todos id n).2 := by
  simp only [StoreState.toggleS]
  split <;> simp

@[simp] theorem deleteS_todos (st : StoreState) (id : String) :
    (st.deleteS id).2.todos = (TodoStore.delete st.todos id).2 := by
  simp only [StoreState.deleteS]
  split <;> simp

@[simp] theorem getS_state (st : StoreState) (id : String) :
    (st.getS id).2 = st := rfl

@[simp] theorem listS_state (st : StoreState) (a : ListArgs) :
    (st.listS a).2 = st := rfl

theorem stampOk_mono {c n : String} (h : strLe c n = true) :
    ∀ {s : List Todo}, stampOk c s = true → stampOk n s = true := by
  intro s hs
  simp only [stampOk, List.all_eq_true, Bool.and_eq_true] at hs ⊢
  intro t ht
  exact ⟨(hs t ht).1, strLe_trans (hs t ht).2 h⟩

theorem stampOk_create {c n : String} {s : List Todo} (hc : strLe c n = true)
    (hs : stampOk c s = true) (d : CreateData) (i : String) :
    stampOk n (TodoStore.create s d i n).2 = true := by
  have hs2 := stampOk_mono hc hs
  simp only [stampOk, List.all_eq_true, Bool.and_eq_true] at hs2 ⊢
  intro t ht
  simp only [TodoStore.create, List.mem_append, List.mem_singleton] at ht
  rcases ht with ht | rfl
  · exact hs2 t ht
  · exact ⟨strLe_refl n, strLe_refl n⟩

theorem stampOk_replaceFirstBy {c n : String} {s : List Todo} {id : String}
    {f : Todo → Todo}
    (hf : ∀ t, (f t).created_at = t.created_at ∧ (f t).updated_at = n)
    (hc : strLe c n = true) (hs : stampOk c s = true) :
    stampOk n (replaceFirstBy f s id).2 = true := by
  have hs2 : ∀ t ∈ s,
      strLe t.created_at t.updated_at = true ∧ strLe t.updated_at n = true := by
    have := stampOk_mono hc hs
    simpa [stampOk, List.all_eq_true, Bool.and_eq_true] using this
  simp only [stampOk, List.all_eq_true, Bool.and_eq_true]
  intro x hx
  rcases replaceFirstBy_mem hx with hx2 | ⟨t, ht, rfl⟩
  · exact hs2 x hx2
  · refine ⟨?_, ?_⟩
    · rw [(hf t).1, (hf t).2]
      exact strLe_trans (hs2 t ht).1 (hs2 t ht).2
    · rw [(hf t).2]
      exact strLe_refl n

theorem stampOk_delete {c : String} {s : List Todo} {id : String}
    (hs : stampOk c s = true) : stampOk c (TodoStore.delete s id).2 = true := by
  simp only [stampOk, List.all_eq_true] at hs ⊢
  intro x hx
  exact hs x (delete_mem hx)

theorem stampOk_runOps : ∀ (ops : List Op) (st : StoreState) (c : String),
    stampOk c st.todos = true → chron c ops = true →
    stampOk (clockAfter c ops) (runOps st ops).todos = true
  | [], _, _, hs, _ => hs
  | op :: ops, st, c, hs, hc => by
    cases op with
    | opCreate d i n =>
      simp only [chron, Op.stamp, Bool.and_eq_true] at hc
      simp only [runOps, clockAfter, Op.stamp, applyOp]
      exact stampOk_runOps ops _ n (by simpa using stampOk_create hc.1 hs d i) hc.2
    | opUpdate id d n =>
      simp only [chron, Op.stamp, Bool.and_eq_true] at hc
      simp only [runOps, clockAfter, Op.stamp, applyOp]
      refine stampOk_runOps ops _ n ?_ hc.2
      have h2 := @stampOk_replaceFirstBy c n st.todos id
        (fun t => applyUpdate t d n) (fun t => ⟨rfl, rfl⟩) hc.1 hs
      simpa [update_eq_replaceFirstBy] using h2
    | opToggle id n =>
      simp only [chron, Op.stamp, Bool.and_eq_true] at hc
      simp only [runOps, clockAfter, Op.stamp, applyOp]
      refine stampOk_runOps ops _ n ?_ hc.2
      have h2 := @stampOk_replaceFirstBy c n st.todos id
        (fun t => toggleTodo t n) (fun t => ⟨rfl, rfl⟩) hc.1 hs
      simpa [toggle_eq_replaceFirstBy] using h2
    | opDelete id =>
      simp only [chron, Op.stamp] at hc
      simp only [runOps, clockAfter, Op.stamp, applyOp]
      exact stampOk_runOps ops _ c (by simpa using stampOk_delete hs) hc
    | opGet id =>
      simp only [chron, Op.stamp] at hc
      simp only [runOps, clockAfter, Op.stamp, applyOp]
      exact stampOk_runOps ops _ c (by simpa using hs) hc
    | opList a =>
      simp only [chron, Op.stamp] at hc
      simp only [runOps, clockAfter, Op.stamp, applyOp]
      exact stampOk_runOps ops _ c (by simpa using hs) hc

theorem titleInv_create {s : List Todo} (h : TitleTrimmedInv s) (d : CreateData)
    (i n : String) : TitleTrimmedInv (TodoStore.create s d i n).2 := by
  intro t ht
  simp only [TodoStore.create, List.mem_append, List.mem_singleton] at ht
  rcases ht with ht | rfl
  · exact h t ht
  · exact ⟨d.title.getD "", rfl⟩

theorem titleInv_applyUpdate (t : Todo) (d : UpdateData) (n : String)
    (h : ∃ u, t.title = pyStrip u) :
    ∃ u, (applyUpdate t d n).title = pyStrip u := by
  cases hdt : d.title with
  | none => simpa [applyUpdate, hdt] using h
  | some v =>
    cases v with
    | none => simpa [applyUpdate, hdt] using h
    | some w => exact ⟨w, by simp [applyUpdate, hdt]⟩

theorem titleInv_replaceFirstBy {s : List Todo} {id : String} {f : Todo → Todo}
    (hf : ∀ t, (∃ u, t.title = pyStrip u) → ∃ u, (f t).title = pyStrip u)
    (h : TitleTrimmedInv s) : TitleTrimmedInv (replaceFirstBy f s id).2 := by
  intro x hx
  rcases replaceFirstBy_mem hx with hx2 | ⟨t, ht, rfl⟩
  · exact h x hx2
  · exact hf t (h t ht)

theorem titleInv_runOps : ∀ (ops : List Op) (st : StoreState),
    TitleTrimmedInv st.todos → TitleTrimmedInv (runOps st ops).todos
  | [], _, h => h
  | op :: ops, st, h => by
    cases op with
    | opCreate d i n =>
      refine titleInv_runOps ops _ ?_
      simpa [runOps, applyOp] using titleInv_create h d i n
    | opUpdate id d n =>
      refine titleInv_runOps ops _ ?_
      have h2 := @titleInv_replaceFirstBy st.todos id
        (fun t => applyUpdate t d n) (fun t => titleInv_applyUpdate t d n) h
      simp only [runOps, applyOp, updateS_todos, update_eq_replaceFirstBy]
      exact h2
    | opToggle id n =>
      refine titleInv_runOps ops _ ?_
      have h2 := @titleInv_replaceFirstBy st.todos id
        (fun t => toggleTodo t n) (fun t ht => by simpa [toggleTodo] using ht) h
      simp only [runOps, applyOp, toggleS_todos, toggle_eq_replaceFirstBy]
      exact h2
    | opDelete id =>
      refine titleInv_runOps ops _ ?_
      intro x hx
      simp only [applyOp, deleteS_todos] at hx
      exact h x (delete_mem hx)
    | opGet id =>
      exact titleInv_runOps ops _ (by simpa [applyOp] using h)
    | opList a =>
      exact titleInv_runOps ops _ (by simpa [applyOp] using h)

theorem priLe_trans : ∀ {a b c : Option Int},
    priLe a b = true → priLe b c = true → priLe a c = true := by
  intro a b c h1 h2
  cases a <;> cases b <;> cases c <;> simp_all [priLe]
  omega

theorem priLe_total : ∀ a b : Option Int, priLe a b = true ∨ priLe b a = true := by
  intro a b
  cases a <;> cases b <;> simp [priLe]
  all_goals omega

theorem todoKeyLe_priority (a b : Todo) :
    todoKeyLe "priority" a b = priLe a.priority b.priority := rfl

theorem sorted_listPipeline_priority (s : List Todo) (a : ListArgs)
    (hsb : a.sort_by = "priority") :
    (listPipeline s a).Pairwise
      (fun x y => todoSortLe "priority" (listReverseFlag a.sort_dir) x y = true) := by
  have hn : normSortBy a.sort_by = "priority" := by
    rw [hsb]
    decide
  have htrans : ∀ x y z : Todo,
      todoSortLe "priority" (listReverseFlag a.sort_dir) x y = true →
      todoSortLe "priority" (listReverseFlag a.sort_dir) y z = true →
      todoSortLe "priority" (listReverseFlag a.sort_dir) x z = true := by
    intro x y z h1 h2
    cases hf : listReverseFlag a.sort_dir <;>
      simp only [todoSortLe, hf, if_true, if_false, Bool.false_eq_true,
        todoKeyLe_priority] at h1 h2 ⊢
    · exact priLe_trans h1 h2
    · exact priLe_trans h2 h1
  have htotal : ∀ x y : Todo,
      todoSortLe "priority" (listReverseFlag a.sort_dir) x y = true ∨
      todoSortLe "priority" (listReverseFlag a.sort_dir) y x = true := by
    intro x y
    cases hf : listReverseFlag a.sort_dir <;>
      simp only [todoSortLe, hf, if_true, if_false, Bool.false_eq_true,
        todoKeyLe_priority]
    · exact priLe_total x.priority y.priority
    · exact priLe_total y.priority x.priority
  haveI inst1 : IsTrans Todo
      (fun x y => todoSortLe "priority" (listReverseFlag a.sort_dir) x y = true) :=
    ⟨htrans⟩
  haveI inst2 : IsTotal Todo
      (fun x y => todoSortLe "priority" (listReverseFlag a.sort_dir) x y = true) :=
    ⟨htotal⟩
  have hs := List.sorted_insertionSort
    (fun x y => todoSortLe "priority" (listReverseFlag a.sort_dir) x y = true)
    (listFiltered a.search a.completed s)
  simpa [listPipeline, hn, List.Sorted] using hs

theorem one_le_pageEff (p : Int) : 1 ≤ pageEff p := by
  simp only [pageEff]
  rcases le_total 1 (if p == 0 then 1 else p) with h | h
  · rw [max_eq_right h]
    omega
  · rw [max_eq_left h]
    omega

theorem one_le_perPageEff (pp : Int) : 1 ≤ perPageEff pp := by
  simp only [perPageEff]
  rcases le_total 1 (if pp == 0 then 20 else pp) with h | h
  · rw [max_eq_right h]
    omega
  · rw [max_eq_left h]
    omega

theorem pages_formula (total pp : Nat) (hpp : 1 ≤ pp) :
    (if 0 < total then (total + pp - 1) / pp else 1) =
      max 1 ((total + pp - 1) / pp) := by
  by_cases h0 : 0 < total
  · have h1 : 1 ≤ (total + pp - 1) / pp := by
      rw [Nat.le_div_iff_mul_le (by omega)]
      omega
    simp [h0, Nat.max_eq_right h1]
  · have ht : total = 0 := by omega
    have h2 : (total + pp - 1) / pp = 0 := by
      apply Nat.div_eq_of_lt
      omega
    simp [h0, h2]

theorem replaceFirstBy_fst_some {f : Todo → Todo} :
    ∀ {s : List Todo} {id : String} {u : Todo},
      (replaceFirstBy f s id).1 = some u → ∃ t, u = f t
  | [], _, _, h => by simp [replaceFirstBy] at h
  | x :: xs, id, u, h => by
    cases hx : x.id == id <;> simp [replaceFirstBy, hx] at h
    · exact replaceFirstBy_fst_some h
    · exact ⟨x, h.symm⟩

/-- C1 counterexample: TodoStore.create does not force completed to false for
every input: a payload dict carrying completed=true produces a record with
completed=true (the boundary schema, not the store, keeps completed out). -/
theorem create_completed_cex :
    (TodoStore.create [] cdWithCompleted "id1" "t1").1.completed = true := rfl

/-- C1 (amended): create copies completed from the input with default false,
so completed is false whenever the input carries no completed value (as holds
for every payload of the create schema); the title is the trimmed input
title; created_at and updated_at both equal now; description, due_date and
priority are copied verbatim; the record is appended to the collection. -/
theorem create_contract (s : List Todo) (d : CreateData) (newId now : String) :
    (TodoStore.create s d newId now).1.completed = d.completed.getD false ∧
    (d.completed = none → (TodoStore.create s d newId now).1.completed = false) ∧
    (TodoStore.create s d newId now).1.title = pyStrip (d.title.getD "") ∧
    (TodoStore.create s d newId now).1.created_at = now ∧
    (TodoStore.create s d newId now).1.updated_at = now ∧
    (TodoStore.create s d newId now).1.description = d.description ∧
    (TodoStore.create s d newId now).1.due_date = d.due_date ∧
    (TodoStore.create s d newId now).1.priority = d.priority ∧
    (TodoStore.create s d newId now).1.id = newId ∧
    (TodoStore.create s d newId now).2 = s ++ [(TodoStore.create s d newId now).1] := by
  refine ⟨rfl, ?_, rfl, rfl, rfl, rfl, rfl, rfl, rfl, rfl⟩
  intro h
  simp [TodoStore.create, h]

/-- C1 witness: the amended contract applied to a concrete payload without a
completed key. -/
theorem create_contract_witness :
    (TodoStore.create [] cdPlain "id1" "t1").1.completed = false :=
  (create_contract [] cdPlain "id1" "t1").2.1 rfl

/-- C2 counterexample: on an empty sort_dir the claim demands ascending order,
but the code falls back to "desc": the reverse flag is set although the empty
string is not case-insensitively equal to desc, and a concrete two-record
store comes back newest-first. -/
theorem sort_dir_empty_cex :
    listReverseFlag "" = true ∧ (pyLower "" == "desc") = false ∧
    (TodoStore.list [sampleA, sampleB]
      { defaultArgs with sort_dir := "" }).1.map Todo.id = ["b", "a"] := by
  refine ⟨rfl, rfl, by decide⟩

/-- C2 (amended): the sort order is reversed exactly when sort_dir is empty
(falsy, falling back to the default "desc") or compares case-insensitively
equal to "desc"; every other value yields ascending order. -/
theorem listReverseFlag_spec (sd : String) :
    listReverseFlag sd = (sd == "" || pyLower sd == "desc") := by
  by_cases h : sd = ""
  · subst h
    decide
  · have hb : (sd == "") = false := by simpa using h
    simp [listReverseFlag, hb]

/-- C3: update applies exactly the keys present in the payload: an absent key
leaves the field unchanged; a present description, due_date or priority is
stored as given (so a null clears it); a present non-null title is trimmed
and a present null title is ignored; a present non-null completed is stored
as its boolean; updated_at is stamped with now; the result is returned and
stored; an unknown id yields the not-found signal with the collection
untouched. -/
theorem update_contract (s : List Todo) (id : String) (d : UpdateData)
    (now : String) (t : Todo) :
    (findTodo s id = none → TodoStore.update s id d now = (none, s)) ∧
    (findTodo s id = some t →
      (TodoStore.update s id d now).1 = some (applyUpdate t d now) ∧
      findTodo (TodoStore.update s id d now).2 id = some (applyUpdate t d now)) ∧
    (d.title = none → (applyUpdate t d now).title = t.title) ∧
    (d.title = some none → (applyUpdate t d now).title = t.title) ∧
    (∀ v, d.title = some (some v) → (applyUpdate t d now).title = pyStrip v) ∧
    (d.description = none → (applyUpdate t d now).description = t.description) ∧
    (∀ v, d.description = some v → (applyUpdate t d now).description = v) ∧
    (d.completed = none → (applyUpdate t d now).completed = t.completed) ∧
    (d.completed = some none → (applyUpdate t d now).completed = t.completed) ∧
    (∀ b, d.completed = some (some b) → (applyUpdate t d now).completed = b) ∧
    (d.due_date = none → (applyUpdate t d now).due_date = t.due_date) ∧
    (∀ v, d.due_date = some v → (applyUpdate t d now).due_date = v) ∧
    (d.priority = none → (applyUpdate t d now).priority = t.priority) ∧
    (∀ v, d.priority = some v → (applyUpdate t d now).priority = v) ∧
    (applyUpdate t d now).updated_at = now ∧
    (applyUpdate t d now).created_at = t.created_at ∧
    (applyUpdate t d now).id = t.id := by
  refine ⟨?_, ?_, ?_, ?_, ?_, ?_, ?_, ?_, ?_, ?_, ?_, ?_, ?_, ?_, rfl, rfl, rfl⟩
  · intro h
    rw [update_eq_replaceFirstBy]
    exact replaceFirstBy_of_not_found h
  · intro h
    rw [update_eq_replaceFirstBy]
    exact replaceFirstBy_of_found (f := fun x => applyUpdate x d now)
      (fun x => rfl) h
  · intro h
    simp [applyUpdate, h]
  · intro h
    simp [applyUpdate, h]
  · intro v h
    simp [applyUpdate, h]
  · intro h
    simp [applyUpdate, h]
  · intro v h
    simp [applyUpdate, h]
  · intro h
    simp [applyUpdate, h]
  · intro h
    simp [applyUpdate, h]
  · intro b h
    simp [applyUpdate, h]
  · intro h
    simp [applyUpdate, h]
  · intro v h
    simp [applyUpdate, h]
  · intro h
    simp [applyUpdate, h]
  · intro v h
    simp [applyUpdate, h]

/-- C3 witness: the contract applied to concrete payloads, covering a missing
id, a full payload against a present record, and each key-presence shape. -/
theorem update_contract_witness :
    TodoStore.update [sampleA] "zz" udEmpty "t9" = (none, [sampleA]) ∧
    (TodoStore.update [sampleA] "a" udFull "t9").1 =
      some (applyUpdate sampleA udFull "t9") ∧
    (applyUpdate sampleA udFull "t9").title = pyStrip "  New title " ∧
    (applyUpdate sampleA udNulls "t9").title = sampleA.title := by
  have h1 := update_contract [sampleA] "zz" udEmpty "t9" sampleA
  have h2 := update_contract [sampleA] "a" udFull "t9" sampleA
  have h3 := update_contract [sampleA] "a" udNulls "t9" sampleA
  refine ⟨h1.1 (by decide), (h2.2.1 (by decide)).1, ?_, ?_⟩
  · exact h2.2.2.2.2.1 "  New title " rfl
  · exact h3.2.2.2.1 rfl

/-- C9: toggle flips completed relative to the value before the call and
stamps updated_at; two consecutive toggles on the same id restore completed
to its original value. -/
theorem toggle_contract (s : List Todo) (id n1 n2 : String) (t : Todo)
    (h : findTodo s id = some t) :
    (TodoStore.toggle s id n1).1 = some (toggleTodo t n1) ∧
    (toggleTodo t n1).completed = !t.completed ∧
    (toggleTodo t n1).updated_at = n1 ∧
    findTodo (TodoStore.toggle s id n1).2 id = some (toggleTodo t n1) ∧
    (TodoStore.toggle (TodoStore.toggle s id n1).2 id n2).1 =
      some (toggleTodo (toggleTodo t n1) n2) ∧
    (toggleTodo (toggleTodo t n1) n2).completed = t.completed := by
  have h1 := replaceFirstBy_of_found (f := fun x => toggleTodo x n1)
    (fun x => rfl) h
  rw [← toggle_eq_replaceFirstBy] at h1
  have h2 := replaceFirstBy_of_found (f := fun x => toggleTodo x n2)
    (fun x => rfl) h1.2
  rw [← toggle_eq_replaceFirstBy] at h2
  exact ⟨h1.1, rfl, rfl, h1.2, h2.1, by simp [toggleTodo]⟩

/-- C9 witness: toggling a concrete record twice restores its completed flag. -/
theorem toggle_contract_witness :
    (TodoStore.toggle [sampleA] "a" "t5").1 = some (toggleTodo sampleA "t5") ∧
    (toggleTodo sampleA "t5").completed = !sampleA.completed ∧
    (toggleTodo (toggleTodo sampleA "t5") "t6").completed = sampleA.completed := by
  have h := toggle_contract [sampleA] "a" "t5" "t6" sampleA (by decide)
  exact ⟨h.1, h.2.1, h.2.2.2.2.2⟩

/-- C4: the pagination contract of TodoStore.list: page and per_page are at
least 1 after clamping; total is the filtered count; pages is
ceil(total/per_page) with a minimum of 1 even at total 0; the items are the
slice from (page-1)*per_page of length per_page of the sorted filtered list;
an out-of-range page gives an empty slice; total 0 gives pages 1 and no
items; total 25 at per_page 10, page 3 gives exactly 5 items. -/
theorem list_pagination_contract (s : List Todo) (a : ListArgs) :
    1 ≤ (TodoStore.list s a).2.page ∧
    1 ≤ (TodoStore.list s a).2.per_page ∧
    (TodoStore.list s a).2.total = (listPipeline s a).length ∧
    (TodoStore.list s a).2.total = (listFiltered a.search a.completed s).length ∧
    (TodoStore.list s a).2.pages =
      max 1 (((TodoStore.list s a).2.total + (TodoStore.list s a).2.per_page - 1) /
        (TodoStore.list s a).2.per_page) ∧
    (TodoStore.list s a).1 =
      ((listPipeline s a).drop
        (((TodoStore.list s a).2.page - 1) * (TodoStore.list s a).2.per_page)).take
        (TodoStore.list s a).2.per_page ∧
    ((listPipeline s a).length ≤
        ((TodoStore.list s a).2.page - 1) * (TodoStore.list s a).2.per_page →
      (TodoStore.list s a).1 = []) ∧
    ((TodoStore.list s a).2.total = 0 →
      (TodoStore.list s a).2.pages = 1 ∧ (TodoStore.list s a).1 = []) ∧
    ((TodoStore.list s a).2.total = 25 → a.per_page = 10 → a.page = 3 →
      (TodoStore.list s a).1.length = 5) := by
  refine ⟨one_le_pageEff a.page, one_le_perPageEff a.per_page, rfl, ?_, ?_, rfl,
    ?_, ?_, ?_⟩
  · show (listPipeline s a).length = _
    simp [listPipeline, List.length_insertionSort]
  · exact pages_formula (listPipeline s a).length (perPageEff a.per_page)
      (one_le_perPageEff a.per_page)
  · intro h
    have h2 : (listPipeline s a).length ≤
        (pageEff a.page - 1) * perPageEff a.per_page := h
    show ((listPipeline s a).drop
      ((pageEff a.page - 1) * perPageEff a.per_page)).take (perPageEff a.per_page) = []
    rw [List.drop_eq_nil_of_le h2, List.take_nil]
  · intro h
    have h0 : (listPipeline s a).length = 0 := h
    have hnil : listPipeline s a = [] := List.eq_nil_of_length_eq_zero h0
    constructor
    · show (if 0 < (listPipeline s a).length then _ else 1) = 1
      rw [h0]
      simp
    · show ((listPipeline s a).drop
        ((pageEff a.page - 1) * perPageEff a.per_page)).take (perPageEff a.per_page) = []
      rw [hnil]
      simp
  · intro h25 hpp10 hpg3
    have hp : pageEff a.page = 3 := by
      rw [hpg3]
      decide
    have hq : perPageEff a.per_page = 10 := by
      rw [hpp10]
      decide
    have hl : (listPipeline s a).length = 25 := h25
    show (((listPipeline s a).drop
      ((pageEff a.page - 1) * perPageEff a.per_page)).take (perPageEff a.per_page)).length = 5
    rw [hp, hq]
    simp [List.length_take, List.length_drop, hl]

/-- C4 witness: the contract applied to an empty store (total 0), to a
twenty-five-record store at page 3 of 10, and to an out-of-range page. -/
theorem list_pagination_contract_witness :
    ((TodoStore.list [] defaultArgs).2.pages = 1 ∧
      (TodoStore.list [] defaultArgs).1 = []) ∧
    (TodoStore.list manyTodos argsPage3).1.length = 5 ∧
    (TodoStore.list [sampleA] { defaultArgs with page := 100 }).1 = [] := by
  have h1 := list_pagination_contract [] defaultArgs
  have h2 := list_pagination_contract manyTodos argsPage3
  have h3 := list_pagination_contract [sampleA] { defaultArgs with page := 100 }
  refine ⟨h1.2.2.2.2.2.2.2.1 (by decide), ?_, ?_⟩
  · exact h2.2.2.2.2.2.2.2.2 (by decide) rfl rfl
  · exact h3.2.2.2.2.2.2.1 (by decide)

/-- C7: when list sorts by priority, a record with no priority (treated as
plus infinity) never precedes a record with a set priority under ascending
order, and never follows one under descending order: ascending puts all
missing-priority records after every set-priority record, descending before
them. -/
theorem priority_sort_placement (s : List Todo) (a : ListArgs)
    (hsb : a.sort_by = "priority") (i j : Nat) (hij : i < j)
    (hj : j < (listPipeline s a).length) :
    (listReverseFlag a.sort_dir = false →
      ((listPipeline s a).get ⟨i, Nat.lt_trans hij hj⟩).priority = none →
      ((listPipeline s a).get ⟨j, hj⟩).priority = none) ∧
    (listReverseFlag a.sort_dir = true →
      ((listPipeline s a).get ⟨j, hj⟩).priority = none →
      ((listPipeline s a).get ⟨i, Nat.lt_trans hij hj⟩).priority = none) := by
  have hp := sorted_listPipeline_priority s a hsb
  have hr := (List.pairwise_iff_getElem.mp hp) i j (Nat.lt_trans hij hj) hj hij
  constructor
  · intro hf hni
    have hr2 : priLe (((listPipeline s a).get ⟨i, Nat.lt_trans hij hj⟩).priority)
        (((listPipeline s a).get ⟨j, hj⟩).priority) = true := by
      simpa [todoSortLe, hf, todoKeyLe_priority, List.get_eq_getElem] using hr
    rw [hni] at hr2
    cases hpj : ((listPipeline s a).get ⟨j, hj⟩).priority with
    | none => rfl
    | some v =>
      rw [hpj] at hr2
      simp [priLe] at hr2
  · intro hf hnj
    have hr2 : priLe (((listPipeline s a).get ⟨j, hj⟩).priority)
        (((listPipeline s a).get ⟨i, Nat.lt_trans hij hj⟩).priority) = true := by
      simpa [todoSortLe, hf, todoKeyLe_priority, List.get_eq_getElem] using hr
    rw [hnj] at hr2
    cases hpi : ((listPipeline s a).get ⟨i, Nat.lt_trans hij hj⟩).priority with
    | none => rfl
    | some v =>
      rw [hpi] at hr2
      simp [priLe] at hr2

/-- C7 witness: on a concrete store, ascending by priority puts the two
unprioritized records at the tail, descending at the head. -/
theorem priority_sort_placement_witness :
    ((listPipeline [sampleA, sampleB, sampleC, sampleD] argsPriAsc).get
      ⟨3, by decide⟩).priority = none ∧
    ((listPipeline [sampleA, sampleB, sampleC, sampleD] argsPriDesc).get
      ⟨0, by decide⟩).priority = none := by
  have h1 := priority_sort_placement [sampleA, sampleB, sampleC, sampleD]
    argsPriAsc rfl 2 3 (by decide) (by decide)
  have h2 := priority_sort_placement [sampleA, sampleB, sampleC, sampleD]
    argsPriDesc rfl 0 1 (by decide) (by decide)
  exact ⟨h1.1 rfl (by decide), h2.2 rfl (by decide)⟩

/-- C8: an id with no matching record makes get, update and toggle return the
not-found signal and delete return false, in each case leaving the store
state (collection and persist count) unchanged; and in a store holding a
given id at most once, after delete of that id a get yields not-found and a
second delete yields false. -/
theorem not_found_contract (st : StoreState) (id X : String) (d : UpdateData)
    (now : String) (hno : findTodo st.todos id = none)
    (hX : countId st.todos X ≤ 1) :
    TodoStore.get st.todos id = none ∧
    st.updateS id d now = (none, st) ∧
    st.toggleS id now = (none, st) ∧
    st.deleteS id = (false, st) ∧
    TodoStore.get (TodoStore.delete st.todos X).2 X = none ∧
    (TodoStore.delete (TodoStore.delete st.todos X).2 X).1 = false := by
  have hu : TodoStore.update st.todos id d now = (none, st.todos) := by
    rw [update_eq_replaceFirstBy]
    exact replaceFirstBy_of_not_found hno
  have ht : TodoStore.toggle st.todos id now = (none, st.todos) := by
    rw [toggle_eq_replaceFirstBy]
    exact replaceFirstBy_of_not_found hno
  have hd := delete_of_not_found hno
  have h5 := findTodo_delete_of_countId_le_one hX
  refine ⟨hno, ?_, ?_, ?_, h5, ?_⟩
  · simp [StoreState.updateS, hu]
  · simp [StoreState.toggleS, ht]
  · simp [StoreState.deleteS, hd]
  · simp [delete_of_not_found h5]

/-- C8 witness: the contract applied to a concrete two-record store with an
unknown id and with the id of the first record. -/
theorem not_found_contract_witness :
    TodoStore.get stAB.todos "zz" = none ∧
    stAB.deleteS "zz" = (false, stAB) ∧
    TodoStore.get (TodoStore.delete stAB.todos "a").2 "a" = none ∧
    (TodoStore.delete (TodoStore.delete stAB.todos "a").2 "a").1 = false := by
  have h := not_found_contract stAB "zz" "a" udEmpty "t9" (by decide) (by decide)
  exact ⟨h.1, h.2.2.2.1, h.2.2.2.2.1, h.2.2.2.2.2⟩

/-- C6 counterexample: the store does not enforce a non-empty title: creating
from a whitespace-only title stores a record whose title is the empty
string. -/
theorem title_nonempty_cex :
    ((TodoStore.create [] cdBlankTitle "id1" "t1").2.map Todo.title) = [""] := rfl

/-- C6 (amended): every live record carries a trimmed title (the strip of
some string): the property is preserved by every sequence of store
operations; non-emptiness is not enforced by the store. -/
theorem title_trimmed_invariant (st : StoreState) (ops : List Op)
    (h : TitleTrimmedInv st.todos) : TitleTrimmedInv (runOps st ops).todos :=
  titleInv_runOps ops st h

/-- C6 witness: the invariant holds after creating and toggling on the empty
store. -/
theorem title_trimmed_invariant_witness :
    TitleTrimmedInv (runOps stEmpty
      [Op.opCreate cdPlain "id1" "t1", Op.opToggle "id1" "t2"]).todos :=
  title_trimmed_invariant stEmpty
    [Op.opCreate cdPlain "id1" "t1", Op.opToggle "id1" "t2"]
    (fun t ht => absurd ht (List.not_mem_nil t))

/-- C5: under a monotone clock, every record in every reachable store
satisfies created_at less-or-equal updated_at; update and toggle preserve
every record id and created_at positionally; and whenever update or toggle
returns a record, its updated_at is the stamped now. -/
theorem timestamps_invariant (st : StoreState) (ops : List Op) (c : String)
    (hs : stampOk c st.todos = true) (hc : chron c ops = true) :
    (∀ t ∈ (runOps st ops).todos, strLe t.created_at t.updated_at = true) ∧
    (∀ (s : List Todo) (id : String) (d : UpdateData) (now : String),
      List.Forall₂ (fun x y => y.id = x.id ∧ y.created_at = x.created_at)
        s (TodoStore.update s id d now).2) ∧
    (∀ (s : List Todo) (id now : String),
      List.Forall₂ (fun x y => y.id = x.id ∧ y.created_at = x.created_at)
        s (TodoStore.toggle s id now).2) ∧
    (∀ (s : List Todo) (id : String) (d : UpdateData) (now : String) (u : Todo),
      (TodoStore.update s id d now).1 = some u → u.updated_at = now) ∧
    (∀ (s : List Todo) (id now : String) (u : Todo),
      (TodoStore.toggle s id now).1 = some u → u.updated_at = now) := by
  refine ⟨?_, ?_, ?_, ?_, ?_⟩
  · intro t ht
    have h := stampOk_runOps ops st c hs hc
    simp only [stampOk, List.all_eq_true, Bool.and_eq_true] at h
    exact (h t ht).1
  · intro s2 id d now
    rw [update_eq_replaceFirstBy]
    exact replaceFirstBy_forall₂ (fun t => ⟨rfl, rfl⟩) (fun t => ⟨rfl, rfl⟩) s2 id
  · intro s2 id now
    rw [toggle_eq_replaceFirstBy]
    exact replaceFirstBy_forall₂ (fun t => ⟨rfl, rfl⟩) (fun t => ⟨rfl, rfl⟩) s2 id
  · intro s2 id d now u hu
    rw [update_eq_replaceFirstBy] at hu
    obtain ⟨t, rfl⟩ := replaceFirstBy_fst_some hu
    rfl
  · intro s2 id now u hu
    rw [toggle_eq_replaceFirstBy] at hu
    obtain ⟨t, rfl⟩ := replaceFirstBy_fst_some hu
    rfl

/-- C5 witness: after a concrete create-then-toggle run from the empty store
under a monotone clock, the surviving record satisfies the stamp order. -/
theorem timestamps_invariant_witness :
    strLe todoFix.created_at todoFix.updated_at = true := by
  have h := timestamps_invariant stEmpty
    [Op.opCreate cdPlain "id1" "t1", Op.opToggle "id1" "t2"] "t0"
    (by decide) (by decide)
  exact h.1 todoFix (by decide)

/-- C10: list never changes the store state: a list operation is the identity
on the state, and deleting all list queries from an operation sequence does
not change the final state. -/
theorem list_pure (st : StoreState) (a : ListArgs) (ops : List Op) :
    applyOp st (Op.opList a) = st ∧
    runOps st ops = runOps st (ops.filter fun o => !o.isListQuery) := by
  refine ⟨rfl, ?_⟩
  induction ops generalizing st with
  | nil => rfl
  | cons op ops ih =>
    cases op <;>
      simp only [runOps, List.filter_cons, Op.isListQuery, Bool.not_true,
        Bool.not_false, if_true, if_false, ite_true, ite_false, applyOp,
        listS_state] <;>
      exact ih _
